import Mathlib

set_option maxRecDepth 40000

/-!
Verification development for `remix.py`, a tool that rebases a container
image onto a new base image.  The Python string manipulations of
`get_installed_packages` and `generate_dockerfile` are embedded as
executable functions over `String` / `List Char`, and the engine-facing
control flow of `get_installed_packages` and `build_container_image` is
embedded as trace-producing functions parameterised by the engine's
observable behaviour.
-/

namespace Remix

/-- Model of Python `str.splitlines` for text whose only line separator is
the LF character (the only separator occurring in the probe outputs this
program handles): splits at each LF, drops a trailing empty line, keeps
interior empty lines. -/
def splitlinesCL : List Char → List (List Char)
  | [] => []
  | c :: rest =>
    if c = '\n' then [] :: splitlinesCL rest
    else
      match splitlinesCL rest with
      | [] => [[c]]
      | l :: ls => (c :: l) :: ls

/-- Split a character list at every character satisfying `p`, keeping empty
pieces (the behaviour of Python `str.split(sep)` for a one-character `sep`
when `p` tests for `sep`). -/
def splitByPred (p : Char → Bool) : List Char → List (List Char)
  | [] => [[]]
  | c :: rest =>
    if p c then [] :: splitByPred p rest
    else
      match splitByPred p rest with
      | [] => [[c]]
      | l :: ls => (c :: l) :: ls

/-- Model of Python `str.split()` with no argument: split on whitespace runs
and discard empty pieces. -/
def pySplitWs (l : List Char) : List (List Char) :=
  (splitByPred Char.isWhitespace l).filter (fun t => !t.isEmpty)

/-- Model of Python `line.split('/')[0]`: the piece before the first slash
(the whole line when it has no slash). -/
def aptName (l : List Char) : List Char :=
  (splitByPred (fun c => c == '/') l).headD []

/-- Substring test on character lists, modelling Python `pat in s`. -/
def isInfixCL (pat : List Char) : List Char → Bool
  | [] => pat.isEmpty
  | c :: rest => pat.isPrefixOf (c :: rest) || isInfixCL pat rest

/-- Model of Python `pat in s` on strings. -/
def strIn (pat s : String) : Bool :=
  isInfixCL pat.data s.data

/-- Model of the list comprehension
`[line.split()[0] for line in lines]` of the yum branch: Python raises
`IndexError` (modelled by `none`) if any line has no whitespace token. -/
def yum_names : List (List Char) → Option (List String)
  | [] => some []
  | l :: ls =>
    match (pySplitWs l).head? with
    | none => none
    | some t => (yum_names ls).map (fun r => String.mk t :: r)

/-- The output-parsing step of `get_installed_packages` (remix.py lines
53-60): if the decoded probe output contains the substring `apt`, take the
part before the first `/` of every line containing `/`; otherwise, if it
contains `yum`, take the first whitespace token of every line containing
`.` (which can raise, modelled by `Option`); otherwise the inventory is
empty. -/
def parse_installed_packages (output : String) : Option (List String) :=
  if strIn "apt" output then
    some (((splitlinesCL output.data).filter (fun l => l.contains '/')).map
      (fun l => String.mk (aptName l)))
  else if strIn "yum" output then
    yum_names ((splitlinesCL output.data).filter (fun l => l.contains '.'))
  else
    some []

/-- Python `str.splitlines` lifted to `String`. -/
def pySplitlines (s : String) : List String :=
  (splitlinesCL s.data).map (fun l => String.mk l)

/-- The Dockerfile text produced by `generate_dockerfile` (remix.py lines
63-79), byte for byte: the Python triple-quoted f-string keeps its leading
newline, the four-space indentation of every line, the eight-space
indentation of the `RUN` continuation lines, and the trailing comment
block, with `' '.join(packages)` spliced into the install line. -/
def generate_dockerfile (base_image : String) (packages : List String) : String :=
  "\n    FROM " ++ base_image ++
    "\n\n    RUN apt-get update && \\\n        apt-get install -y \\\n        " ++
    String.intercalate " " packages ++
    " && \\\n        rm -rf /var/lib/apt/lists/*\n\n    # Configure the application environment (set environment variables, working directory, user permissions, etc.)\n    # ...\n\n    # Define the default command to run when the container is started\n    # ENTRYPOINT or CMD instruction (e.g., CMD [\"python\", \"app.py\"])\n    "

/-- The template the specification prescribes for the Recipe Generator,
written from the spec's words: `FROM <baseImage>`, a blank line, then the
four-line `RUN` block with four-space continuation indents and nothing
else. -/
def spec_dockerfile_template (baseImage : String) (packages : List String) : String :=
  "FROM " ++ baseImage ++
    "\n\nRUN apt-get update && \\\n    apt-get install -y \\\n    " ++
    String.intercalate " " packages ++
    " && \\\n    rm -rf /var/lib/apt/lists/*"

/-- The lines of the text `generate_dockerfile` actually produces, used to
state its shape without restating its definition. -/
def dockerfile_lines (base_image : String) (packages : List String) : List String :=
  ["",
   "    FROM " ++ base_image,
   "",
   "    RUN apt-get update && \\",
   "        apt-get install -y \\",
   "        " ++ String.intercalate " " packages ++ " && \\",
   "        rm -rf /var/lib/apt/lists/*",
   "",
   "    # Configure the application environment (set environment variables, working directory, user permissions, etc.)",
   "    # ...",
   "",
   "    # Define the default command to run when the container is started",
   "    # ENTRYPOINT or CMD instruction (e.g., CMD [\"python\", \"app.py\"])",
   "    "]

/-- Join lines with LF separators (no trailing LF). -/
def joinLines : List String → String
  | [] => ""
  | [l] => l
  | l :: ls => l ++ "\n" ++ joinLines ls

/-- Number of positions at which `pat` occurs in `s` (occurrences counted
at every starting position). -/
def occCount (pat : List Char) : List Char → Nat
  | [] => 0
  | c :: rest => (if pat.isPrefixOf (c :: rest) then 1 else 0) + occCount pat rest

/-- The engine operations `get_installed_packages` performs on the
ephemeral container, in program order. -/
inductive ExtractStep
  | createContainer
  | putArchive
  | startContainer
  | execProbe
  | stopContainer
  | removeContainer
  deriving DecidableEq

/-- How an extraction call ends: a normal return with the inventory, or
process termination with an exit code. -/
inductive ExtractResult
  | returned : List String → ExtractResult
  | exited : Nat → ExtractResult
  deriving DecidableEq

/-- Control-flow model of `get_installed_packages` (remix.py lines 16-60)
over the engine's observable behaviour at the probe exec: `some output`
means `container.exec_run` returns `output`; `none` means it raises.  On
success the code runs start, exec, stop, remove and returns the parsed
inventory (an exception in the parsing step would escape and end the
process with exit code 1); when the exec raises, the `except` branch
prints diagnostics and calls `sys.exit(1)` without stopping or removing
the container. -/
def get_installed_packages (execOutcome : Option String) :
    List ExtractStep × ExtractResult :=
  match execOutcome with
  | some output =>
    ([ExtractStep.createContainer, ExtractStep.putArchive, ExtractStep.startContainer,
      ExtractStep.execProbe, ExtractStep.stopContainer, ExtractStep.removeContainer],
     match parse_installed_packages output with
     | some pkgs => ExtractResult.returned pkgs
     | none => ExtractResult.exited 1)
  | none =>
    ([ExtractStep.createContainer, ExtractStep.putArchive, ExtractStep.startContainer,
      ExtractStep.execProbe],
     ExtractResult.exited 1)

/-- One record of the engine's build log; `stream` models
`log.get('stream', '')` being present or absent. -/
structure BuildLogRecord where
  stream : Option String
  deriving DecidableEq

/-- Observable outcome of `client.images.build`: success with an image and
its log records, a structured `docker.errors.BuildError` carrying
`build_log`, or any other exception. -/
inductive BuildOutcome
  | success : String → List BuildLogRecord → BuildOutcome
  | buildErr : String → List BuildLogRecord → BuildOutcome
  | otherErr : String → BuildOutcome

/-- Observable actions of `build_container_image`: printing a line,
terminating the process, or returning the built image handle. -/
inductive BuildAction
  | printed : String → BuildAction
  | exited : Nat → BuildAction
  | returnedImage : String → BuildAction
  deriving DecidableEq

/-- Model of Python `str.strip()`: remove leading and trailing
whitespace. -/
def pyStrip (s : String) : String :=
  String.mk (((s.data.dropWhile Char.isWhitespace).reverse.dropWhile Char.isWhitespace).reverse)

/-- The line printed for one build-log record:
`log.get('stream', '').strip()`. -/
def logLine (log : BuildLogRecord) : String :=
  pyStrip (log.stream.getD "")

/-- Control-flow model of `build_container_image` (remix.py lines 82-102)
as the ordered list of its observable actions, given the engine's outcome
for the build call. -/
def build_container_image (outcome : BuildOutcome) (tag : String) : List BuildAction :=
  match outcome with
  | BuildOutcome.success img logs =>
    BuildAction.printed ("Building new container image: " ++ tag) ::
      (logs.map (fun l => BuildAction.printed (logLine l)) ++
        [BuildAction.returnedImage img])
  | BuildOutcome.buildErr msg logs =>
    BuildAction.printed ("Building new container image: " ++ tag) ::
      BuildAction.printed ("Error building the new image: " ++ msg) ::
        (logs.map (fun l => BuildAction.printed (logLine l)) ++
          [BuildAction.exited 1])
  | BuildOutcome.otherErr msg =>
    [BuildAction.printed ("Building new container image: " ++ tag),
     BuildAction.printed ("An unexpected error occurred while building the new image: " ++ msg),
     BuildAction.exited 1]

theorem str_ext {s t : String} (h : s.data = t.data) : s = t := by
  cases s; cases t; cases h; rfl

theorem str_data_append (s t : String) : (s ++ t).data = s.data ++ t.data := by
  cases s; cases t; rfl

theorem splitByPred_ne_nil (p : Char → Bool) (l : List Char) : splitByPred p l ≠ [] := by
  induction l with
  | nil => simp [splitByPred]
  | cons c rest ih =>
    by_cases h : p c = true
    · simp [splitByPred, h]
    · have hb : p c = false := by simpa using h
      simp only [splitByPred, hb, Bool.false_eq_true, if_false]
      cases hs : splitByPred p rest <;> simp

theorem splitByPred_headD (p : Char → Bool) (l : List Char) :
    (splitByPred p l).headD [] = l.takeWhile (fun c => !(p c)) := by
  induction l with
  | nil => simp [splitByPred]
  | cons c rest ih =>
    by_cases h : p c = true
    · simp [splitByPred, List.takeWhile_cons, h]
    · have hb : p c = false := by simpa using h
      simp only [splitByPred, hb, Bool.false_eq_true, if_false]
      cases hs : splitByPred p rest with
      | nil => exact absurd hs (splitByPred_ne_nil p rest)
      | cons t ts =>
        rw [hs] at ih
        simp only [List.headD] at ih ⊢
        simp [List.takeWhile_cons, hb, ← ih]

theorem pySplitWs_head (c : Char) (hw : c.isWhitespace = false) :
    ∀ l : List Char, c ∈ l →
      (pySplitWs l).head? =
        some ((l.dropWhile Char.isWhitespace).takeWhile (fun d => !d.isWhitespace)) := by
  intro l
  induction l with
  | nil => intro hc; cases hc
  | cons a rest ih =>
    intro hc
    by_cases ha : a.isWhitespace = true
    · have hcr : c ∈ rest := by
        cases hc with
        | head => rw [hw] at ha; cases ha
        | tail _ h => exact h
      have h1 : pySplitWs (a :: rest) = pySplitWs rest := by
        simp [pySplitWs, splitByPred, ha]
      have h2 : (a :: rest).dropWhile Char.isWhitespace = rest.dropWhile Char.isWhitespace := by
        simp [List.dropWhile_cons, ha]
      rw [h1, h2]
      exact ih hcr
    · have haf : a.isWhitespace = false := by simpa using ha
      cases hs : splitByPred Char.isWhitespace rest with
      | nil => exact absurd hs (splitByPred_ne_nil _ _)
      | cons t ts =>
        have h1 : pySplitWs (a :: rest) = (a :: t) :: ts.filter (fun u => !u.isEmpty) := by
          simp [pySplitWs, splitByPred, haf, hs]
        have ht : t = rest.takeWhile (fun d => !d.isWhitespace) := by
          have := splitByPred_headD Char.isWhitespace rest
          rw [hs] at this
          simpa using this
        rw [h1]
        simp [List.dropWhile_cons, haf, List.takeWhile_cons, ht]

theorem yum_names_eq (ls : List (List Char))
    (h : ∀ l ∈ ls, l.contains '.' = true) :
    yum_names ls =
      some (ls.map (fun l =>
        String.mk ((l.dropWhile Char.isWhitespace).takeWhile (fun d => !d.isWhitespace)))) := by
  induction ls with
  | nil => rfl
  | cons l ls ih =>
    have hdot : '.' ∈ l := by
      have hc := h l (List.mem_cons_self l ls)
      simpa [List.contains] using hc
    have hhead := pySplitWs_head '.' (by decide) l hdot
    simp only [yum_names, hhead]
    rw [ih (fun x hx => h x (List.mem_cons_of_mem _ hx))]
    rfl

theorem occ_append_no_first (p : Char) (rest : List Char) :
    ∀ (x y : List Char), (∀ c ∈ x, c ≠ p) →
      occCount (p :: rest) (x ++ y) = occCount (p :: rest) y := by
  intro x
  induction x with
  | nil => intro y _; rfl
  | cons a x ih =>
    intro y h
    have ha : (p == a) = false := by
      have hne := h a (List.mem_cons_self a x)
      simp only [beq_eq_false_iff_ne]
      exact fun hh => hne hh.symm
    have hpf : List.isPrefixOf (p :: rest) (a :: (x ++ y)) = false := by
      show (p == a && List.isPrefixOf rest (x ++ y)) = false
      rw [ha]
      rfl
    have hstep : occCount (p :: rest) ((a :: x) ++ y) =
        (if List.isPrefixOf (p :: rest) (a :: (x ++ y)) = true then 1 else 0) +
          occCount (p :: rest) (x ++ y) := rfl
    rw [hstep, hpf]
    simp only [Bool.false_eq_true, if_false, Nat.zero_add]
    exact ih y (fun d hd => h d (List.mem_cons_of_mem _ hd))

theorem occ_append_newline (p₁ p₂ p₃ y₀ : Char)
    (h₂ : (p₂ == y₀) = false) (h₃ : (p₃ == y₀) = false) :
    ∀ (bl t : List Char),
      occCount [p₁, p₂, p₃] (bl ++ y₀ :: t) =
        occCount [p₁, p₂, p₃] bl + occCount [p₁, p₂, p₃] (y₀ :: t) := by
  intro bl
  induction bl with
  | nil => intro t; simp [occCount]
  | cons c bl ih =>
    intro t
    have hkey : (List.isPrefixOf [p₁, p₂, p₃] (c :: (bl ++ y₀ :: t))) =
        (List.isPrefixOf [p₁, p₂, p₃] (c :: bl)) := by
      cases bl with
      | nil => simp [List.isPrefixOf, h₂]
      | cons d bl2 =>
        cases bl2 with
        | nil => simp [List.isPrefixOf, h₃]
        | cons e bl3 => simp [List.isPrefixOf]
    have hstep : occCount [p₁, p₂, p₃] ((c :: bl) ++ y₀ :: t) =
        (if List.isPrefixOf [p₁, p₂, p₃] (c :: (bl ++ y₀ :: t)) = true then 1 else 0) +
          occCount [p₁, p₂, p₃] (bl ++ y₀ :: t) := rfl
    have hstep2 : occCount [p₁, p₂, p₃] (c :: bl) =
        (if List.isPrefixOf [p₁, p₂, p₃] (c :: bl) = true then 1 else 0) +
          occCount [p₁, p₂, p₃] bl := rfl
    rw [hstep, hkey, ih t, hstep2]
    omega

theorem getLast_app_single {α : Type} (l : List α) (a : α) :
    (l ++ [a]).getLast? = some a := by
  induction l with
  | nil => rfl
  | cons b l ih =>
    cases l with
    | nil => rfl
    | cons c l2 =>
      simp only [List.cons_append] at ih ⊢
      rw [List.getLast?_cons_cons]
      exact ih

set_option maxRecDepth 8000 in
theorem generate_dockerfile_data (b : String) (ps : List String) :
    (generate_dockerfile b ps).data =
      "\n    FROM ".data ++ (b.data ++
        ("\n\n    RUN apt-get update && \\\n        apt-get install -y \\\n        ".data ++
          ((String.intercalate " " ps).data ++
            " && \\\n        rm -rf /var/lib/apt/lists/*\n\n    # Configure the application environment (set environment variables, working directory, user permissions, etc.)\n    # ...\n\n    # Define the default command to run when the container is started\n    # ENTRYPOINT or CMD instruction (e.g., CMD [\"python\", \"app.py\"])\n    ".data))) := by
  simp only [generate_dockerfile, str_data_append, List.append_assoc]

/-- C1 counterexample: for probe output made of exactly the lines
`curl/stable 7.68 amd64` and `not-a-package-line` — which contains a line
of the form `name/repo version arch` but not the substring `apt` — the
code returns the empty inventory, not `["curl"]` as the claim states. -/
theorem slash_lines_without_apt_marker :
    parse_installed_packages "curl/stable 7.68 amd64\nnot-a-package-line" = some [] ∧
      parse_installed_packages "curl/stable 7.68 amd64\nnot-a-package-line" ≠ some ["curl"] :=
  ⟨by decide, by decide⟩

/-- C1 (amended): provided the probe output also contains the literal
substring `apt`, `get_installed_packages` yields, for each line containing
a `/` and in original order, the substring before the first `/`,
regardless of how many lines without a `/` are interleaved. -/
theorem apt_branch_names (output : String) (h : strIn "apt" output = true) :
    parse_installed_packages output =
      some (((splitlinesCL output.data).filter (fun l => l.contains '/')).map
        (fun l => String.mk (l.takeWhile (fun c => !(c == '/'))))) := by
  unfold parse_installed_packages
  rw [if_pos h]
  simp only [aptName, splitByPred_headD]

/-- Witness for the amended C1: on apt-marker output with the scenario's
two lines the inventory is exactly `["curl"]`. -/
theorem apt_branch_names_witness :
    parse_installed_packages "apt\ncurl/stable 7.68 amd64\nnot-a-package-line" = some ["curl"] := by
  rw [apt_branch_names "apt\ncurl/stable 7.68 amd64\nnot-a-package-line" (by decide)]
  decide

/-- C2 counterexample: when the probe exec raises, the `except` branch
prints diagnostics and exits the process without ever invoking the
container-remove operation, so its invocation count on that path is 0,
not 1 as the claim requires. -/
theorem remove_skipped_when_exec_raises :
    ¬ ((get_installed_packages none).1.count ExtractStep.removeContainer = 1) := by
  decide

/-- C2 (amended): on the success path the container-remove operation is
invoked exactly once before the call returns; but when the probe exec
raises, remove is never invoked and the process terminates with exit code
1, leaking the container. -/
theorem container_remove_per_path (o : String) :
    (get_installed_packages (some o)).1.count ExtractStep.removeContainer = 1 ∧
      (get_installed_packages none).1.count ExtractStep.removeContainer = 0 ∧
      (get_installed_packages none).2 = ExtractResult.exited 1 :=
  ⟨rfl, by decide, by decide⟩

/-- C3 counterexample: at base image `debian:12` and package list
`["curl"]`, the generated text is not the spec's plain template: the
code's f-string keeps a leading newline, indents every line, and appends
a comment block. -/
theorem dockerfile_not_spec_template :
    generate_dockerfile "debian:12" ["curl"] ≠ spec_dockerfile_template "debian:12" ["curl"] := by
  decide

/-- C3 (amended): for every base image `b` and package list `ps`,
`generate_dockerfile b ps` equals, bit for bit, the LF-joined line list
beginning with an empty line, then `    FROM <b>` (four-space indent), a
blank line, the `RUN` block with eight-space continuation lines embedding
the space-joined `ps`, and the trailing comment block ending in an
indented final line — and nothing else. -/
theorem generate_dockerfile_bytes (b : String) (ps : List String) :
    generate_dockerfile b ps = joinLines (dockerfile_lines b ps) := by
  apply str_ext
  rw [generate_dockerfile_data]
  simp only [dockerfile_lines, joinLines, str_data_append, List.append_assoc]
  rfl

/-- C4 counterexample: for probe output consisting of the single line
`bash.x86_64 5.0 installed` — which contains a `.` line but not the
substring `yum` — the code returns the empty inventory, not `["bash"]`
as the claim states. -/
theorem dot_line_without_yum_marker :
    parse_installed_packages "bash.x86_64 5.0 installed" = some [] ∧
      parse_installed_packages "bash.x86_64 5.0 installed" ≠ some ["bash"] :=
  ⟨by decide, by decide⟩

/-- C4 (amended): provided the probe output contains the substring `yum`
and not the substring `apt`, `get_installed_packages` yields, for each
line containing a `.` and in original order, the line's first
whitespace-delimited token kept whole — so `bash.x86_64`, arch suffix
included, for the line `bash.x86_64 5.0 installed`, not `bash`. -/
theorem yum_branch_names (output : String)
    (hapt : strIn "apt" output = false) (hyum : strIn "yum" output = true) :
    parse_installed_packages output =
      some (((splitlinesCL output.data).filter (fun l => l.contains '.')).map
        (fun l => String.mk
          ((l.dropWhile Char.isWhitespace).takeWhile (fun d => !d.isWhitespace)))) := by
  have hna : ¬ (strIn "apt" output = true) := by simp [hapt]
  unfold parse_installed_packages
  rw [if_neg hna, if_pos hyum]
  exact yum_names_eq _ (fun l hl => (List.mem_filter.mp hl).2)

/-- Witness for the amended C4: on yum-marker output with the scenario's
line the inventory is exactly `["bash.x86_64"]`. -/
theorem yum_branch_names_witness :
    parse_installed_packages "yum\nbash.x86_64 5.0 installed" = some ["bash.x86_64"] := by
  rw [yum_branch_names "yum\nbash.x86_64 5.0 installed" (by decide) (by decide)]
  decide

/-- C5: for probe output containing neither the substring `apt` nor the
substring `yum`, `get_installed_packages` returns the empty inventory and
no failure value. -/
theorem no_marker_empty_inventory (output : String)
    (hapt : strIn "apt" output = false) (hyum : strIn "yum" output = false) :
    parse_installed_packages output = some [] := by
  have hna : ¬ (strIn "apt" output = true) := by simp [hapt]
  have hny : ¬ (strIn "yum" output = true) := by simp [hyum]
  unfold parse_installed_packages
  rw [if_neg hna, if_neg hny]

/-- Witness for C5 at a concrete marker-free output. -/
theorem no_marker_empty_inventory_witness :
    parse_installed_packages "no packages here" = some [] :=
  no_marker_empty_inventory "no packages here" (by decide) (by decide)

/-- C6: `generate_dockerfile` is pure and deterministic — it is a total
function on base-image strings and package lists (its Lean type returns a
`String` for every input, including the empty list, with no effect and no
failure), and two calls with identical inputs yield byte-identical
output. -/
theorem generate_dockerfile_deterministic (b1 b2 : String) (ps1 ps2 : List String)
    (hb : b1 = b2) (hp : ps1 = ps2) :
    generate_dockerfile b1 ps1 = generate_dockerfile b2 ps2 := by
  rw [hb, hp]

/-- Witness for C6 at concrete identical inputs (the empty package
list). -/
theorem generate_dockerfile_deterministic_witness :
    generate_dockerfile "debian:12" [] = generate_dockerfile "debian:12" [] :=
  generate_dockerfile_deterministic "debian:12" "debian:12" [] [] rfl rfl

/-- C7 counterexample: at base image `debian:12`, no line of
`generate_dockerfile "debian:12" []` equals `FROM debian:12` — the actual
line carries four spaces of indentation — so the claim's literal-line
requirement fails. -/
theorem from_line_is_indented :
    ¬ ("FROM debian:12" ∈ pySplitlines (generate_dockerfile "debian:12" [])) := by
  decide

/-- C7 (amended): for every base image `b`, `generate_dockerfile b []`
contains `FROM <b>` as a substring (inside the indented line
`    FROM <b>`) and contains the syntactically complete install block with
zero package tokens; and whenever `b` itself contains no occurrence of
`a b`, `generate_dockerfile b ["a", "b"]` contains the space-joined
substring `a b` exactly once, in the given order. -/
theorem dockerfile_from_and_join (b : String) :
    (∃ u v, u ++ ("FROM " ++ b).data ++ v = (generate_dockerfile b []).data) ∧
    (∃ u v, u ++ "RUN apt-get update && \\\n        apt-get install -y \\\n         && \\\n        rm -rf /var/lib/apt/lists/*".data ++ v =
      (generate_dockerfile b []).data) ∧
    (occCount "a b".data b.data = 0 →
      occCount "a b".data (generate_dockerfile b ["a", "b"]).data = 1) := by
  refine ⟨?_, ?_, ?_⟩
  · refine ⟨"\n    ".data,
      "\n\n    RUN apt-get update && \\\n        apt-get install -y \\\n         && \\\n        rm -rf /var/lib/apt/lists/*\n\n    # Configure the application environment (set environment variables, working directory, user permissions, etc.)\n    # ...\n\n    # Define the default command to run when the container is started\n    # ENTRYPOINT or CMD instruction (e.g., CMD [\"python\", \"app.py\"])\n    ".data, ?_⟩
    rw [generate_dockerfile_data]
    simp only [str_data_append, List.append_assoc]
    rfl
  · refine ⟨"\n    FROM ".data ++ b.data ++ "\n\n    ".data,
      "\n\n    # Configure the application environment (set environment variables, working directory, user permissions, etc.)\n    # ...\n\n    # Define the default command to run when the container is started\n    # ENTRYPOINT or CMD instruction (e.g., CMD [\"python\", \"app.py\"])\n    ".data, ?_⟩
    rw [generate_dockerfile_data]
    simp only [List.append_assoc]
    rfl
  · intro h0
    have hab : "a b".data = ['a', ' ', 'b'] := rfl
    rw [hab] at h0 ⊢
    rw [generate_dockerfile_data]
    have h1 : "\n\n    RUN apt-get update && \\\n        apt-get install -y \\\n        ".data ++
        ((String.intercalate " " ["a", "b"]).data ++
          " && \\\n        rm -rf /var/lib/apt/lists/*\n\n    # Configure the application environment (set environment variables, working directory, user permissions, etc.)\n    # ...\n\n    # Define the default command to run when the container is started\n    # ENTRYPOINT or CMD instruction (e.g., CMD [\"python\", \"app.py\"])\n    ".data) =
        '\n' :: "\n    RUN apt-get update && \\\n        apt-get install -y \\\n        a b && \\\n        rm -rf /var/lib/apt/lists/*\n\n    # Configure the application environment (set environment variables, working directory, user permissions, etc.)\n    # ...\n\n    # Define the default command to run when the container is started\n    # ENTRYPOINT or CMD instruction (e.g., CMD [\"python\", \"app.py\"])\n    ".data := by
      decide
    rw [h1]
    rw [occ_append_no_first 'a' [' ', 'b'] "\n    FROM ".data _ (by decide)]
    rw [occ_append_newline 'a' ' ' 'b' '\n' (by decide) (by decide) b.data _]
    rw [h0]
    decide

/-- Witness for the amended C7: at base image `debian:12` (which contains
no occurrence of `a b`) the generated text contains `a b` exactly once. -/
theorem dockerfile_from_and_join_witness :
    occCount "a b".data "debian:12".data = 0 ∧
      occCount "a b".data (generate_dockerfile "debian:12" ["a", "b"]).data = 1 :=
  ⟨by decide, (dockerfile_from_and_join "debian:12").2.2 (by decide)⟩

/-- C8: when the engine reports a structured build failure, every log line
captured in the failure is printed, the process's final action is
termination with exit code 1 (so all printing happens first), and no
image handle is returned; the model performs the single build invocation
with no retry. -/
theorem build_error_behavior (tag msg : String) (logs : List BuildLogRecord) :
    (∀ log ∈ logs,
        BuildAction.printed (logLine log) ∈
          build_container_image (BuildOutcome.buildErr msg logs) tag) ∧
      (build_container_image (BuildOutcome.buildErr msg logs) tag).getLast? =
        some (BuildAction.exited 1) ∧
      (∀ img, BuildAction.returnedImage img ∉
        build_container_image (BuildOutcome.buildErr msg logs) tag) := by
  refine ⟨?_, ?_, ?_⟩
  · intro log hlog
    simp only [build_container_image, List.mem_cons, List.mem_append, List.mem_map]
    exact Or.inr (Or.inr (Or.inl ⟨log, hlog, rfl⟩))
  · have he : build_container_image (BuildOutcome.buildErr msg logs) tag =
        (BuildAction.printed ("Building new container image: " ++ tag) ::
          BuildAction.printed ("Error building the new image: " ++ msg) ::
            logs.map (fun l => BuildAction.printed (logLine l))) ++
          [BuildAction.exited 1] := rfl
    rw [he]
    exact getLast_app_single _ _
  · intro img hmem
    simp only [build_container_image, List.mem_cons, List.mem_append, List.mem_map] at hmem
    rcases hmem with h | h | ⟨l, hl, h⟩ | h | h <;> cases h

/-- Witness for C8: a concrete build failure with one log record whose
stream is printed (stripped) and whose action list ends in exit code 1. -/
theorem build_error_behavior_witness :
    BuildAction.printed "step failed" ∈
        build_container_image (BuildOutcome.buildErr "boom" [⟨some " step failed \n"⟩]) "new:tag" ∧
      (build_container_image (BuildOutcome.buildErr "boom" [⟨some " step failed \n"⟩]) "new:tag").getLast? =
        some (BuildAction.exited 1) := by
  have h := build_error_behavior "new:tag" "boom" [⟨some " step failed \n"⟩]
  refine ⟨?_, h.2.1⟩
  have hm := h.1 ⟨some " step failed \n"⟩ (by simp)
  have hl : logLine ⟨some " step failed \n"⟩ = "step failed" := by decide
  rw [hl] at hm
  exact hm

/-- C9: inventory entries are not guaranteed to be non-empty names: for a
probe output containing the substring `apt` and a line whose first
character is `/`, the inventory contains the empty string. -/
theorem apt_inventory_can_contain_empty_name :
    ∃ (output : String) (inv : List String),
      strIn "apt" output = true ∧
        parse_installed_packages output = some inv ∧ "" ∈ inv :=
  ⟨"apt\n/usr/bin/foo", [""], by decide, by decide, by decide⟩

/-- C10: the parsing step of `get_installed_packages` is total: for every
probe output, each yum-branch line containing a `.` has at least one
non-whitespace character and hence a first whitespace-delimited token, so
the indexing cannot go out of bounds and the parse never produces the
failure value. -/
theorem parse_installed_packages_total (output : String) :
    (parse_installed_packages output).isSome = true := by
  unfold parse_installed_packages
  by_cases h1 : strIn "apt" output = true
  · rw [if_pos h1]; rfl
  · rw [if_neg h1]
    by_cases h2 : strIn "yum" output = true
    · rw [if_pos h2]
      rw [yum_names_eq _ (fun l hl => (List.mem_filter.mp hl).2)]
      rfl
    · rw [if_neg h2]; rfl

end Remix
